import Mathlib

/-!
Shallow embedding of `api/scanner/scanner.go` (package `scanner`) of the
photoview repository, together with proofs about the scanner's behaviour.

The embedding models, faithfully to the Go source:
  * the lexical path functions of Go's `path` package that the scanner uses
    (`Clean`, `Dir`, `Join`, `Base`), as `cleanPath`, `dirOfPath`, `joinPath`,
    `basePath`;
  * the single untyped cache map `scanner_cache` with its prefixed string keys
    (`photo_type//...` holding strings, `album_path//...` holding booleans);
  * `isPathImage`, `directoryContainsPhotos` (with its inner entry loop and its
    breadth-first queue), `insert_album_paths` (a possibly non-terminating
    `for` loop, modelled with explicit fuel), `cleanupCache`, and the main
    `scan` traversal loop.

Filesystem reads, the photo-processing collaborator and cache-folder removal
are external effects; they are modelled as oracles (`FS`, `processOk`,
`removeOk`) recording exactly the information the scanner observes of them.
Machine-level concerns (SQL engine internals, goroutine scheduling) are out of
scope; the relational store is modelled as the list of rows the scanner's five
SQL statements read and write.
-/

set_option maxRecDepth 4000

/-! ## Go `path` package (lexical path functions used by the scanner) -/

/-- Split a character list on `/`, keeping empty components (as Go's
`strings.Split(s, "/")` would). -/
def splitSlash : List Char → List (List Char)
  | [] => [[]]
  | c :: rest =>
    if c = '/' then [] :: splitSlash rest
    else
      match splitSlash rest with
      | [] => [[c]]
      | g :: gs => (c :: g) :: gs

/-- Process the components of a path against a stack, as Go's `path.Clean`
does: drop empty and `.` components, resolve `..` against the stack (or keep
it, for relative paths that escape upwards). The stack is kept reversed
(most recent component first). -/
def cleanStack (rooted : Bool) : List (List Char) → List (List Char) → List (List Char)
  | [], acc => acc
  | e :: rest, acc =>
    if e = [] ∨ e = ['.'] then cleanStack rooted rest acc
    else if e = ['.', '.'] then
      match acc with
      | top :: accRest =>
        if top = ['.', '.'] then cleanStack rooted rest (e :: top :: accRest)
        else cleanStack rooted rest accRest
      | [] => if rooted then cleanStack rooted rest [] else cleanStack rooted rest [e]
    else cleanStack rooted rest (e :: acc)

/-- Join components with `/` separators. -/
def joinSlash : List (List Char) → List Char
  | [] => []
  | [e] => e
  | e :: rest => e ++ '/' :: joinSlash rest

/-- Go `path.Clean`: the lexically cleaned form of a path. -/
def cleanPath (p : String) : String :=
  match p.data with
  | [] => "."
  | c :: rest =>
    let rooted := c = '/'
    let stack := (cleanStack rooted (splitSlash (c :: rest)) []).reverse
    let body := joinSlash stack
    if rooted then String.mk ('/' :: body)
    else if body = [] then "." else String.mk body

/-- The part of a character list up to and including its last `/`
(empty if there is no `/`), as Go's `path.Split` computes it. -/
def upToLastSlash (l : List Char) : List Char :=
  (l.reverse.dropWhile (fun c => !(c = '/'))).reverse

/-- Go `path.Dir`: everything up to the final slash, cleaned. -/
def dirOfPath (p : String) : String :=
  cleanPath (String.mk (upToLastSlash p.data))

/-- Go `path.Join` on two elements: the non-empty elements joined by a slash
and cleaned; empty when both elements are empty. -/
def joinPath (a b : String) : String :=
  if a = "" then (if b = "" then "" else cleanPath b)
  else if b = "" then cleanPath a
  else cleanPath (a ++ "/" ++ b)

/-- Go `path.Base`: the last element of the path after trailing slashes are
removed; `"."` for the empty path, `"/"` for a path of only slashes. -/
def basePath (p : String) : String :=
  if p = "" then "."
  else
    let stripped := (p.data.reverse.dropWhile (fun c => c = '/')).reverse
    if stripped = [] then "/"
    else String.mk (stripped.reverse.takeWhile (fun c => !(c = '/'))).reverse

/-! ## The scanner cache

The Go source keeps one untyped map `scanner_cache map[string]interface{}`
holding both photo content types (string values under keys
`"photo_type//" + path`) and album containment verdicts (bool values under
keys `"album_path//" + path`).  We model `interface{}` values restricted to
the two dynamic types the scanner stores, and the map as an association list
where the most recent insertion shadows older ones. -/

/-- A value stored in the scanner's untyped cache map: either a content-type
string or a containment boolean. -/
inductive CacheVal where
  | str (s : String)
  | bl (b : Bool)
deriving DecidableEq, Repr

/-- The scanner's cache map, keyed by prefixed path strings. -/
abbrev scanner_cache := List (String × CacheVal)

/-- Map lookup: the most recently inserted binding for a key. -/
def cache_lookup : scanner_cache → String → Option CacheVal
  | [], _ => none
  | (k, v) :: rest, key => if k = key then some v else cache_lookup rest key

/-- Map insertion (`(*cache)[key] = value`). -/
def cache_insert (c : scanner_cache) (k : String) (v : CacheVal) : scanner_cache :=
  (k, v) :: c

/-- Go `(cache).insert_photo_type(path, content_type)`. -/
def insert_photo_type (c : scanner_cache) (p content_type : String) : scanner_cache :=
  cache_insert c ("photo_type//" ++ p) (.str content_type)

/-- Go `(cache).get_photo_type(path)`: the stored value, provided its dynamic
type is `string` (the type assertion in the source). -/
def get_photo_type (c : scanner_cache) (p : String) : Option String :=
  match cache_lookup c ("photo_type//" ++ p) with
  | some (.str s) => some s
  | _ => none

/-- Go `(cache).insert_album_path(path, contains_photo)`. -/
def insert_album_path (c : scanner_cache) (p : String) (contains_photo : Bool) : scanner_cache :=
  cache_insert c ("album_path//" ++ p) (.bl contains_photo)

/-- Go `(cache).album_contains_photo(path)`: the stored value, provided its
dynamic type is `bool`. -/
def album_contains_photo (c : scanner_cache) (p : String) : Option Bool :=
  match cache_lookup c ("album_path//" ++ p) with
  | some (.bl b) => some b
  | _ => none

/-- The body of Go `insert_album_paths`: a `for` loop walking
`curr_path = path.Dir(curr_path)` while `curr_path != root_path ||
curr_path == "."`.  The loop need not terminate (for example when
`root_path = "."`), so it is modelled with explicit fuel; `none` means the
fuel ran out before the loop exited. -/
def insert_album_paths_loop (root_path : String) (contains_photo : Bool) :
    Nat → String → scanner_cache → Option scanner_cache
  | 0, _, _ => none
  | fuel + 1, curr_path, c =>
    if ¬ curr_path = root_path ∨ curr_path = "." then
      insert_album_paths_loop root_path contains_photo fuel (dirOfPath curr_path)
        (insert_album_path c curr_path contains_photo)
    else some c

/-- Go `(cache).insert_album_paths(end_path, root, contains_photo)`. -/
def insert_album_paths (fuel : Nat) (end_path root : String) (c : scanner_cache)
    (contains_photo : Bool) : Option scanner_cache :=
  insert_album_paths_loop (cleanPath root) contains_photo fuel (cleanPath end_path) c

/-- The list of directories the `insert_album_paths` loop inserts, in
insertion order, mirroring the loop's condition and fuel exactly. -/
def ancestorChain (root_path : String) : Nat → String → List String
  | 0, _ => []
  | fuel + 1, curr_path =>
    if ¬ curr_path = root_path ∨ curr_path = "." then
      curr_path :: ancestorChain root_path fuel (dirOfPath curr_path)
    else []

/-- The flush at the end of an exhaustive, unsuccessful containment probe:
`for _, scanned_path := range scanned_directories
   cache.insert_album_path(scanned_path, false)`. -/
def insert_false_all (scanned : List String) (c : scanner_cache) : scanner_cache :=
  scanned.foldl (fun acc p => insert_album_path acc p false) c

/-! ## Filesystem oracle and `isPathImage` -/

/-- One entry of a directory listing, as `ioutil.ReadDir` reports it to the
scanner (file name and directory flag). -/
structure DirEntry where
  name : String
  isDir : Bool
deriving DecidableEq, Repr

/-- What the scanner observes when it opens a file and sniffs its header:
whether the 261-byte header read succeeds, and the result of
`filetype.Image` on the header (`some mime` on a successful image sniff,
`none` when `filetype.Image` returns an error). -/
structure FileMeta where
  readOk : Bool
  sniff : Option String
deriving DecidableEq, Repr

/-- The filesystem oracle: directory listings (`none` models a `ReadDir`
error) and file headers (`none` models an `os.Open` error). -/
structure FS where
  readDir : String → Option (List DirEntry)
  files : String → Option FileMeta

/-- Go `SupportedMimetypes`. -/
def SupportedMimetypes : List String :=
  ["image/jpeg", "image/png", "image/tiff", "image/webp", "image/x-canon-cr2", "image/bmp"]

/-- Go `WebMimetypes` (exposed by the source, unused by detection logic). -/
def WebMimetypes : List String :=
  ["image/jpeg", "image/png", "image/webp", "image/bmp"]

/-- Go `isPathImage(path, cache)`: cached verdicts are reused; otherwise the
file header is read and sniffed, and only a successfully sniffed, supported
mime type is cached (as the matching element of `SupportedMimetypes`) and
reported `true`.  Returns the verdict together with the cache after the
call. -/
def isPathImage (p : String) (c : scanner_cache) (fs : FS) : Bool × scanner_cache :=
  match get_photo_type c p with
  | some _ => (true, c)
  | none =>
    match fs.files p with
    | none => (false, c)
    | some meta =>
      if ¬ meta.readOk then (false, c)
      else
        match meta.sniff with
        | none => (false, c)
        | some mime =>
          if mime ∈ SupportedMimetypes then (true, insert_photo_type c p mime)
          else (false, c)

/-! ## `directoryContainsPhotos` (the containment probe) -/

/-- Result of the inner `for _, fileInfo := range dirContent` loop of
`directoryContainsPhotos` on one dequeued directory: either the loop runs to
completion (`next`, carrying the cache after the loop and the subdirectories
pushed onto the breadth-first queue, in order), or a file classified as a
supported image (`foundHere`, carrying the result of the
`insert_album_paths` call — `none` when its fuel ran out). -/
inductive EntriesResult where
  | next (c : scanner_cache) (newDirs : List String)
  | foundHere (res : Option scanner_cache)
deriving DecidableEq

/-- The inner entry loop of `directoryContainsPhotos`: subdirectories are
enqueued, files are classified; the first supported image triggers
`cache.insert_album_paths(dirPath, rootPath, true)` and ends the probe. -/
def probeEntries (fs : FS) (dirPath rootPath : String) (iapFuel : Nat) :
    List DirEntry → scanner_cache → List String → EntriesResult
  | [], c, acc => .next c acc
  | e :: rest, c, acc =>
    let filePath := joinPath dirPath e.name
    if e.isDir then probeEntries fs dirPath rootPath iapFuel rest c (acc ++ [filePath])
    else
      match isPathImage filePath c fs with
      | (true, c1) => .foundHere (insert_album_paths iapFuel dirPath rootPath c1 true)
      | (false, c1) => probeEntries fs dirPath rootPath iapFuel rest c1 acc

/-- Outcome of the breadth-first loop of `directoryContainsPhotos`.
`found` records the directory whose entry matched, the directories dequeued
so far (each of which had `ReadDir` called on it) and the final cache;
`exhausted` records the dequeued directories and the cache before the final
`false` flush; `listError` records the dequeued directories (the failing one
last) and the cache, which the loop has not written to. -/
inductive ProbeOutcome where
  | found (hitDir : String) (scanned : List String) (c : scanner_cache)
  | exhausted (scanned : List String) (c : scanner_cache)
  | listError (scanned : List String) (c : scanner_cache)
  | noFuel
deriving DecidableEq

/-- The breadth-first queue loop of `directoryContainsPhotos`, with explicit
fuel bounding the number of dequeue steps. -/
def probeLoop (fs : FS) (rootPath : String) :
    Nat → List String → List String → scanner_cache → ProbeOutcome
  | 0, _, _, _ => .noFuel
  | _ + 1, [], scanned, c => .exhausted scanned c
  | fuel + 1, dirPath :: queue, scanned, c =>
    let scanned1 := scanned ++ [dirPath]
    match fs.readDir dirPath with
    | none => .listError scanned1 c
    | some dirContent =>
      match probeEntries fs dirPath rootPath fuel dirContent c [] with
      | .foundHere (some c1) => .found dirPath scanned1 c1
      | .foundHere none => .noFuel
      | .next c1 newDirs => probeLoop fs rootPath fuel (queue ++ newDirs) scanned1 c1

/-- Go `directoryContainsPhotos(rootPath, cache)`: answer from the cache when
possible, otherwise run the breadth-first probe seeded with `rootPath`; an
exhausted probe flushes a `false` verdict for every dequeued directory, a
listing error returns `false` without caching.  `none` models fuel
exhaustion of the model (not a behaviour of the source). -/
def directoryContainsPhotos (fs : FS) (fuel : Nat) (rootPath : String)
    (c : scanner_cache) : Option (Bool × scanner_cache) :=
  match album_contains_photo c rootPath with
  | some b => some (b, c)
  | none =>
    match probeLoop fs rootPath fuel [rootPath] [] c with
    | .found _ _ c1 => some (true, c1)
    | .exhausted scanned c1 => some (false, insert_false_all scanned c1)
    | .listError _ c1 => some (false, c1)
    | .noFuel => none

/-! ## The relational store -/

/-- A row of the `album` table. -/
structure AlbumRow where
  album_id : Nat
  title : String
  parent_album : Option Nat
  owner_id : Nat
  path : String
deriving DecidableEq, Repr

/-- A photo row as `ProcessImage` commits it: the file path, the owning album
id and the detected content type (the arguments the scanner hands to the
collaborator). -/
structure PhotoRow where
  path : String
  albumId : Nat
  contentType : String
deriving DecidableEq, Repr

/-- The relational store visible to the scanner. -/
structure DB where
  albums : List AlbumRow
  photos : List PhotoRow
deriving DecidableEq, Repr

/-- A fresh album id, assigned by the persistence layer on insert. -/
def nextAlbumId (albums : List AlbumRow) : Nat :=
  (albums.map (fun r => r.album_id)).foldl max 0 + 1

/-- Go `INSERT IGNORE INTO album (title, parent_album, owner_id, path) VALUES
(?, ?, ?, ?)`: a no-op when a row with this `(owner_id, path)` already exists
(the table's per-owner path uniqueness), otherwise a new row with a fresh
id. -/
def insertIgnoreAlbum (albums : List AlbumRow) (title : String) (parent : Option Nat)
    (owner : Nat) (p : String) : List AlbumRow :=
  if albums.any (fun r => r.owner_id = owner ∧ r.path = p) then albums
  else albums ++ [⟨nextAlbumId albums, title, parent, owner, p⟩]

/-- Go `SELECT album_id FROM album WHERE path = ?` (line 126 of the source):
the first row whose path matches, with no condition on the owner. -/
def selectAlbumIdByPath (albums : List AlbumRow) (p : String) : Option Nat :=
  (albums.find? (fun r => r.path = p)).map (fun r => r.album_id)

/-- Modelled from the spec: the album-id lookup the specification describes,
keyed by BOTH `(ownerId, path)` ("lookup album id by `(ownerId, path)`",
spec section 6).  The source's query (`selectAlbumIdByPath`) omits the owner
condition; this definition exists to compare the two. -/
def selectAlbumIdByOwnerAndPathSpec (albums : List AlbumRow) (owner : Nat) (p : String) :
    Option Nat :=
  (albums.find? (fun r => r.owner_id = owner ∧ r.path = p)).map (fun r => r.album_id)

/-- The SQL condition of `cleanupCache`'s select:
`album.owner_id = ? AND path NOT IN (scanned...)`. -/
def staleFilter (uid : Nat) (scanned : List String) (r : AlbumRow) : Bool :=
  r.owner_id = uid ∧ ¬ r.path ∈ scanned

/-- Go `cleanupCache(database, scanned_albums, user)`: returns without work
when no album paths were scanned; otherwise selects the owner's album ids
whose path is not among the scanned paths, attempts to remove each one's
derived-cache folder (`removeOk` is the `os.RemoveAll` oracle; a failure is
only logged), and batch-deletes all selected ids.  Returns the album table
after the pass and the count of successfully removed cache folders. -/
def cleanupCache (albums : List AlbumRow) (scanned_albums : List String) (uid : Nat)
    (removeOk : Nat → Bool) : List AlbumRow × Nat :=
  if scanned_albums.isEmpty then (albums, 0)
  else
    let stale := albums.filter (staleFilter uid scanned_albums)
    let deleted_ids := stale.map (fun r => r.album_id)
    let deleted_albums := (stale.filter (fun r => removeOk r.album_id)).length
    let albums2 :=
      if deleted_ids.isEmpty then albums
      else albums.filter (fun r => ¬ r.album_id ∈ deleted_ids)
    (albums2, deleted_albums)

/-! ## The main scan loop -/

/-- Go's `scanInfo` queue element: a directory path and the parent album id
to attach. -/
structure ScanTask where
  path : String
  parentId : Option Nat
deriving DecidableEq, Repr

/-- The mutable state of one scan run: the store, the cache, the
`album_paths_scanned` list, and (as ghost instrumentation) the list of file
paths handed to the `ProcessImage` collaborator. -/
structure ScanState where
  db : DB
  cache : scanner_cache
  scanned : List String
  processed : List String
deriving DecidableEq, Repr

/-- The external collaborators of one scan run: the filesystem, the
photo-processing collaborator's verdict per file path, and the
`os.RemoveAll` verdict per album id used by `cleanupCache`. -/
structure ScanEnv where
  fs : FS
  processOk : String → Bool
  removeOk : Nat → Bool

/-- The fields of `models.User` the scanner reads. -/
structure GoUser where
  id : Nat
  rootPath : String

/-- Result of the per-directory photo loop (`for _, item := range dirContent`
over files): completion, a `ProcessImage` failure at some path (the per-file
transaction is rolled back), or the content type missing from the cache. -/
inductive FileLoopResult where
  | ok (st : ScanState)
  | procFail (p : String) (st : ScanState)
  | cacheMiss (st : ScanState)
deriving DecidableEq

/-- The per-directory photo loop: each non-directory entry that classifies as
a supported image is processed in its own transaction; on success the photo
row is committed, on failure the transaction is rolled back and the loop
reports the failing path. -/
def fileLoop (env : ScanEnv) (albumPath : String) (albumId : Nat) :
    List DirEntry → ScanState → FileLoopResult
  | [], st => .ok st
  | e :: rest, st =>
    if e.isDir then fileLoop env albumPath albumId rest st
    else
      let photoPath := joinPath albumPath e.name
      match isPathImage photoPath st.cache env.fs with
      | (false, c1) => fileLoop env albumPath albumId rest { st with cache := c1 }
      | (true, c1) =>
        match get_photo_type c1 photoPath with
        | none => .cacheMiss { st with cache := c1 }
        | some content_type =>
          let st1 := { st with cache := c1, processed := st.processed ++ [photoPath] }
          if env.processOk photoPath then
            fileLoop env albumPath albumId rest
              { st1 with db := { st1.db with
                  photos := st1.db.photos ++ [⟨photoPath, albumId, content_type⟩] } }
          else .procFail photoPath st1

/-- Result of the per-directory sub-album loop: the tasks pushed onto the
scan queue and the cache after all containment probes, or fuel exhaustion of
the probe model. -/
inductive DirLoopResult where
  | ok (newTasks : List ScanTask) (c : scanner_cache)
  | noFuel
deriving DecidableEq

/-- The per-directory sub-album loop: each directory entry whose containment
probe answers `true` is enqueued with the current album id as parent. -/
def dirLoop (env : ScanEnv) (fuel : Nat) (albumPath : String) (albumId : Nat) :
    List DirEntry → scanner_cache → List ScanTask → DirLoopResult
  | [], c, acc => .ok acc c
  | e :: rest, c, acc =>
    if e.isDir then
      let subalbumPath := joinPath albumPath e.name
      match directoryContainsPhotos env.fs fuel subalbumPath c with
      | none => .noFuel
      | some (true, c1) =>
        dirLoop env fuel albumPath albumId rest c1 (acc ++ [⟨subalbumPath, some albumId⟩])
      | some (false, c1) => dirLoop env fuel albumPath albumId rest c1 acc
    else dirLoop env fuel albumPath albumId rest c acc

/-- Outcome of a scan run.  `done` is the only outcome in which the
traversal ran to completion (and, at the `scan` wrapper, the only outcome in
which `cleanupCache` runs); the `aborted*` outcomes model the early
`return` statements of the source and carry the state at the abort. -/
inductive ScanOutcome where
  | done (st : ScanState)
  | abortedRead (dir : String) (st : ScanState)
  | abortedAlbumLookup (st : ScanState)
  | abortedCacheMiss (st : ScanState)
  | abortedProcess (p : String) (st : ScanState)
  | noFuel
deriving DecidableEq

/-- The main queue loop of Go `scan(database, user)`: dequeue a directory,
record it as scanned, list it (a failure aborts the run), upsert its album
row and read the album id back by path in one transaction, process its
files, probe and enqueue its subdirectories. -/
def scanLoop (env : ScanEnv) (uid : Nat) :
    Nat → List ScanTask → ScanState → ScanOutcome
  | 0, _, _ => .noFuel
  | _ + 1, [], st => .done st
  | fuel + 1, task :: queue, st =>
    let albumPath := task.path
    let st0 := { st with scanned := st.scanned ++ [albumPath] }
    match env.fs.readDir albumPath with
    | none => .abortedRead albumPath st0
    | some dirContent =>
      let albumTitle := basePath albumPath
      let albums1 := insertIgnoreAlbum st0.db.albums albumTitle task.parentId uid albumPath
      match selectAlbumIdByPath albums1 albumPath with
      | none => .abortedAlbumLookup st0
      | some albumId =>
        let st1 := { st0 with db := { st0.db with albums := albums1 } }
        match fileLoop env albumPath albumId dirContent st1 with
        | .cacheMiss st2 => .abortedCacheMiss st2
        | .procFail p st2 => .abortedProcess p st2
        | .ok st2 =>
          match dirLoop env fuel albumPath albumId dirContent st2.cache [] with
          | .noFuel => .noFuel
          | .ok newTasks c1 =>
            scanLoop env uid fuel (queue ++ newTasks) { st2 with cache := c1 }

/-- Go `scan(database, user)` from the initial store `db0`: run the queue
loop from the user's root; only a completed run invokes `cleanupCache` on
the album table. -/
def scan (env : ScanEnv) (user : GoUser) (fuel : Nat) (db0 : DB) : ScanOutcome :=
  match scanLoop env user.id fuel [⟨user.rootPath, none⟩] ⟨db0, [], [], []⟩ with
  | .done st =>
    .done { st with db := { st.db with
        albums := (cleanupCache st.db.albums st.scanned user.id env.removeOk).1 } }
  | o => o

/-- The state carried by a scan outcome, when there is one. -/
def ScanOutcome.state : ScanOutcome → Option ScanState
  | .done st => some st
  | .abortedRead _ st => some st
  | .abortedAlbumLookup st => some st
  | .abortedCacheMiss st => some st
  | .abortedProcess _ st => some st
  | .noFuel => none

/-! ## Concrete filesystems used as witnesses -/

/-- A root `/gallery` whose only image sits at `/gallery/x/y/z/img.jpg`.
The sibling directory `/gallery/x/y/w` is enqueued by the breadth-first
probe but never dequeued (the probe stops at the image first); it is not
even listable, so a probe that returns `true` provably never listed it. -/
def fs1 : FS where
  readDir := fun p =>
    if p = "/gallery" then some [⟨"x", true⟩]
    else if p = "/gallery/x" then some [⟨"y", true⟩]
    else if p = "/gallery/x/y" then some [⟨"z", true⟩, ⟨"w", true⟩]
    else if p = "/gallery/x/y/z" then some [⟨"img.jpg", false⟩]
    else none
  files := fun p =>
    if p = "/gallery/x/y/z/img.jpg" then some ⟨true, some "image/jpeg"⟩
    else none

/-- A root `/empty` containing no supported image anywhere: one unreadable
text file and one empty subdirectory. -/
def fs2 : FS where
  readDir := fun p =>
    if p = "/empty" then some [⟨"d", true⟩, ⟨"notes.txt", false⟩]
    else if p = "/empty/d" then some []
    else none
  files := fun p =>
    if p = "/empty/notes.txt" then some ⟨true, none⟩
    else none

/-- A root `/err` whose subdirectory `/err/bad` cannot be listed; the file
`/err/pic.bin` sniffs as `application/pdf` and is rejected without caching,
so the listing failure is reached with the cache still untouched. -/
def fs3 : FS where
  readDir := fun p =>
    if p = "/err" then some [⟨"bad", true⟩, ⟨"pic.bin", false⟩]
    else none
  files := fun p =>
    if p = "/err/pic.bin" then some ⟨true, some "application/pdf"⟩
    else none

/-- The cache produced by the probe of `fs1` rooted at `/gallery`: the hit
directory and its ancestors strictly below the root, plus the content type
of the matched image.  The root itself is absent. -/
def probeFoundCache : scanner_cache :=
  [("album_path//" ++ "/gallery/x", .bl true),
   ("album_path//" ++ "/gallery/x/y", .bl true),
   ("album_path//" ++ "/gallery/x/y/z", .bl true),
   ("photo_type//" ++ "/gallery/x/y/z/img.jpg", .str "image/jpeg")]

/-! ## Further definitions used by the witnesses -/

/-- The album table of the C3 scenario: a prior scan produced albums for
`/A`, `/A/B`, `/A/C`, all owned by user 7. -/
def albumsABC : List AlbumRow :=
  [⟨1, "A", none, 7, "/A"⟩, ⟨2, "B", some 1, 7, "/A/B"⟩, ⟨3, "C", some 1, 7, "/A/C"⟩]

/-- The state carried by a file-loop result. -/
def FileLoopResult.state : FileLoopResult → ScanState
  | .ok st => st
  | .procFail _ st => st
  | .cacheMiss st => st

/-- The filesystem of the C4 scenario: the root `/r` holds a processable
image `a.jpg`, an image `bad.jpg` on which the collaborator will fail, and a
subdirectory `sub` containing a further image. -/
def fs4 : FS where
  readDir := fun p =>
    if p = "/r" then some [⟨"a.jpg", false⟩, ⟨"bad.jpg", false⟩, ⟨"sub", true⟩]
    else if p = "/r/sub" then some [⟨"c.png", false⟩]
    else none
  files := fun p =>
    if p = "/r/a.jpg" then some ⟨true, some "image/jpeg"⟩
    else if p = "/r/bad.jpg" then some ⟨true, some "image/jpeg"⟩
    else if p = "/r/sub/c.png" then some ⟨true, some "image/png"⟩
    else none

/-- The C4 environment: `ProcessImage` fails exactly on `/r/bad.jpg`. -/
def env4 : ScanEnv := ⟨fs4, fun q => ¬ q = "/r/bad.jpg", fun _ => true⟩

/-- The C4 initial store: a stale album of user 9 and one of its photos. -/
def db4 : DB := ⟨[⟨5, "stale", none, 9, "/r/stale"⟩], [⟨"/r/old.jpg", 5, "image/jpeg"⟩]⟩

/-- The state at which the C4 scan aborts. -/
def st4 : ScanState :=
  ⟨⟨[⟨5, "stale", none, 9, "/r/stale"⟩, ⟨6, "r", none, 9, "/r"⟩],
    [⟨"/r/old.jpg", 5, "image/jpeg"⟩, ⟨"/r/a.jpg", 6, "image/jpeg"⟩]⟩,
   [("photo_type//" ++ "/r/bad.jpg", .str "image/jpeg"),
    ("photo_type//" ++ "/r/a.jpg", .str "image/jpeg")],
   ["/r"], ["/r/a.jpg", "/r/bad.jpg"]⟩

/-- The filesystem of the C2 scenario: one image under `/photos`. -/
def fsShared : FS where
  readDir := fun p => if p = "/photos" then some [⟨"img.jpg", false⟩] else none
  files := fun p => if p = "/photos/img.jpg" then some ⟨true, some "image/png"⟩ else none

/-- The C2 environment: every collaborator call succeeds. -/
def envShared : ScanEnv := ⟨fsShared, fun _ => true, fun _ => true⟩

/-- The C2 initial store: user 1 already owns an album with path `/photos`. -/
def dbShared : DB := ⟨[⟨1, "photos", none, 1, "/photos"⟩], []⟩

/-- The filesystem of the C7 scenario: `/docs` holds a PDF (sniffed as
`application/pdf`) next to a supported JPEG. -/
def fs5 : FS where
  readDir := fun p =>
    if p = "/docs" then some [⟨"report.pdf", false⟩, ⟨"ok.jpg", false⟩] else none
  files := fun p =>
    if p = "/docs/report.pdf" then some ⟨true, some "application/pdf"⟩
    else if p = "/docs/ok.jpg" then some ⟨true, some "image/jpeg"⟩
    else none

/-- The C7 environment: every collaborator call succeeds. -/
def env5 : ScanEnv := ⟨fs5, fun _ => true, fun _ => true⟩

/-- The final state of the C7 scan: only `ok.jpg` is cached and processed. -/
def st5 : ScanState :=
  ⟨⟨[⟨1, "docs", none, 3, "/docs"⟩], [⟨"/docs/ok.jpg", 1, "image/jpeg"⟩]⟩,
   [("photo_type//" ++ "/docs/ok.jpg", .str "image/jpeg")], ["/docs"], ["/docs/ok.jpg"]⟩

/-! ## Basic lemmas about strings and the cache -/

theorem data_append_eq (a b : String) : (a ++ b).data = a.data ++ b.data := by
  cases a; cases b; rfl

theorem string_append_left_cancel {s a b : String} (h : s ++ a = s ++ b) : a = b := by
  have h2 : (s ++ a).data = (s ++ b).data := by rw [h]
  rw [data_append_eq, data_append_eq] at h2
  exact String.ext (List.append_cancel_left h2)

theorem photo_key_ne_album_key (p q : String) :
    ¬ ("photo_type//" ++ p = "album_path//" ++ q) := by
  intro h
  have h2 : ("photo_type//" ++ p).data = ("album_path//" ++ q).data := by rw [h]
  rw [data_append_eq, data_append_eq] at h2
  simp [show ("photo_type//").data = ['p','h','o','t','o','_','t','y','p','e','/','/'] from rfl,
    show ("album_path//").data = ['a','l','b','u','m','_','p','a','t','h','/','/'] from rfl] at h2

theorem cache_lookup_insert (c : scanner_cache) (k : String) (v : CacheVal) (k2 : String) :
    cache_lookup (cache_insert c k v) k2 = if k = k2 then some v else cache_lookup c k2 := rfl

theorem get_photo_type_insert_photo (c : scanner_cache) (p t q : String) :
    get_photo_type (insert_photo_type c p t) q =
      if q = p then some t else get_photo_type c q := by
  unfold get_photo_type insert_photo_type
  rw [cache_lookup_insert]
  by_cases h : q = p
  · subst h; simp
  · have hne : ¬ ("photo_type//" ++ p = "photo_type//" ++ q) := fun hh =>
      h (string_append_left_cancel hh).symm
    simp [hne, h]

theorem get_photo_type_insert_album (c : scanner_cache) (p : String) (v : Bool) (q : String) :
    get_photo_type (insert_album_path c p v) q = get_photo_type c q := by
  unfold get_photo_type insert_album_path
  rw [cache_lookup_insert]
  have hne : ¬ ("album_path//" ++ p = "photo_type//" ++ q) := fun hh =>
    photo_key_ne_album_key q p hh.symm
  simp [hne]

theorem album_contains_photo_insert_album (c : scanner_cache) (p : String) (v : Bool)
    (q : String) :
    album_contains_photo (insert_album_path c p v) q =
      if q = p then some v else album_contains_photo c q := by
  unfold album_contains_photo insert_album_path
  rw [cache_lookup_insert]
  by_cases h : q = p
  · subst h; simp
  · have hne : ¬ ("album_path//" ++ p = "album_path//" ++ q) := fun hh =>
      h (string_append_left_cancel hh).symm
    simp [hne, h]

theorem album_contains_photo_insert_photo (c : scanner_cache) (p t q : String) :
    album_contains_photo (insert_photo_type c p t) q = album_contains_photo c q := by
  unfold album_contains_photo insert_photo_type
  rw [cache_lookup_insert]
  have hne : ¬ ("photo_type//" ++ p = "album_path//" ++ q) := photo_key_ne_album_key p q
  simp [hne]

/-! ## Lemmas about `isPathImage` -/

theorem isPathImage_false_cache {p : String} {c : scanner_cache} {fs : FS}
    {c1 : scanner_cache} (h : isPathImage p c fs = (false, c1)) : c1 = c := by
  unfold isPathImage at h
  cases hg : get_photo_type c p with
  | some t => rw [hg] at h; simp at h
  | none =>
    rw [hg] at h
    cases hf : fs.files p with
    | none => rw [hf] at h; simp at h; exact h.symm
    | some meta =>
      rw [hf] at h
      by_cases hr : meta.readOk
      · simp [hr] at h
        cases hs : meta.sniff with
        | none => rw [hs] at h; simp at h; exact h.symm
        | some mime =>
          rw [hs] at h
          by_cases hm : mime ∈ SupportedMimetypes
          · simp [hm] at h
          · simp [hm] at h; exact h.symm
      · simp [hr] at h; exact h.symm

theorem isPathImage_true_entry {p : String} {c : scanner_cache} {fs : FS}
    {c1 : scanner_cache} (h : isPathImage p c fs = (true, c1)) :
    (get_photo_type c1 p).isSome := by
  unfold isPathImage at h
  cases hg : get_photo_type c p with
  | some t =>
    rw [hg] at h
    simp at h
    rw [← h, hg]; rfl
  | none =>
    rw [hg] at h
    cases hf : fs.files p with
    | none => rw [hf] at h; simp at h
    | some meta =>
      rw [hf] at h
      by_cases hr : meta.readOk
      · simp [hr] at h
        cases hs : meta.sniff with
        | none => rw [hs] at h; simp at h
        | some mime =>
          rw [hs] at h
          by_cases hm : mime ∈ SupportedMimetypes
          · simp [hm] at h
            rw [← h, get_photo_type_insert_photo]
            simp
          · simp [hm] at h
      · simp [hr] at h

theorem isPathImage_true_album {p : String} {c : scanner_cache} {fs : FS}
    {c1 : scanner_cache} (h : isPathImage p c fs = (true, c1)) :
    ∀ q, album_contains_photo c1 q = album_contains_photo c q := by
  intro q
  unfold isPathImage at h
  cases hg : get_photo_type c p with
  | some t => rw [hg] at h; simp at h; rw [h]
  | none =>
    rw [hg] at h
    cases hf : fs.files p with
    | none => rw [hf] at h; simp at h
    | some meta =>
      rw [hf] at h
      by_cases hr : meta.readOk
      · simp [hr] at h
        cases hs : meta.sniff with
        | none => rw [hs] at h; simp at h
        | some mime =>
          rw [hs] at h
          by_cases hm : mime ∈ SupportedMimetypes
          · simp [hm] at h
            rw [← h, album_contains_photo_insert_photo]
          · simp [hm] at h
      · simp [hr] at h

/-! ## Lemmas about `insert_album_paths` -/

theorem insert_album_paths_loop_term :
    ∀ (n : Nat) (curr root : String) (c : scanner_cache) (v : Bool) (fuel : Nat),
      dirOfPath^[n] curr = root → ¬ root = "." → n < fuel →
      ∃ c1, insert_album_paths_loop root v fuel curr c = some c1 := by
  intro n
  induction n with
  | zero =>
    intro curr root c v fuel h hr hf
    cases fuel with
    | zero => omega
    | succ f =>
      have hc : curr = root := h
      unfold insert_album_paths_loop
      rw [if_neg (by rw [hc]; exact fun hor => hor.elim (fun h1 => h1 rfl) hr)]
      exact ⟨c, rfl⟩
  | succ n ih =>
    intro curr root c v fuel h hr hf
    cases fuel with
    | zero => omega
    | succ f =>
      by_cases hc : curr = root
      · unfold insert_album_paths_loop
        rw [if_neg (by rw [hc]; exact fun hor => hor.elim (fun h1 => h1 rfl) hr)]
        exact ⟨c, rfl⟩
      · unfold insert_album_paths_loop
        rw [if_pos (Or.inl hc)]
        exact ih (dirOfPath curr) root (insert_album_path c curr v) v f
          (by rw [← Function.iterate_succ_apply]; exact h) hr (by omega)

theorem insert_album_paths_loop_marks :
    ∀ (fuel : Nat) (curr root : String) (c c1 : scanner_cache) (v : Bool),
      insert_album_paths_loop root v fuel curr c = some c1 →
      ∀ q, album_contains_photo c1 q =
        if q ∈ ancestorChain root fuel curr then some v else album_contains_photo c q := by
  intro fuel
  induction fuel with
  | zero => intro curr root c c1 v h; simp [insert_album_paths_loop] at h
  | succ f ih =>
    intro curr root c c1 v h q
    unfold insert_album_paths_loop at h
    unfold ancestorChain
    by_cases hc : ¬ curr = root ∨ curr = "."
    · rw [if_pos hc] at h
      rw [if_pos hc]
      rw [ih (dirOfPath curr) root (insert_album_path c curr v) c1 v h q,
        album_contains_photo_insert_album]
      by_cases hq : q ∈ ancestorChain root f (dirOfPath curr)
      · simp [hq, List.mem_cons]
      · by_cases hqc : q = curr <;> simp [hq, hqc, List.mem_cons]
    · rw [if_neg hc] at h
      rw [if_neg hc]
      cases h
      simp

theorem root_not_mem_ancestorChain :
    ∀ (fuel : Nat) (curr root : String), ¬ root = "." →
      ¬ root ∈ ancestorChain root fuel curr := by
  intro fuel
  induction fuel with
  | zero => intro curr root _; simp [ancestorChain]
  | succ f ih =>
    intro curr root hr
    unfold ancestorChain
    by_cases hc : ¬ curr = root ∨ curr = "."
    · rw [if_pos hc]
      intro hmem
      rcases List.mem_cons.mp hmem with h1 | h2
      · rcases hc with h | h
        · exact h h1.symm
        · exact hr (h1.trans h)
      · exact ih (dirOfPath curr) root hr h2
    · rw [if_neg hc]; simp

/-! ## Lemmas about the containment probe -/

theorem probeEntries_next_cache {fs : FS} {dirPath rootPath : String} {iapFuel : Nat} :
    ∀ (entries : List DirEntry) (c : scanner_cache) (acc : List String)
      {c1 : scanner_cache} {acc1 : List String},
      probeEntries fs dirPath rootPath iapFuel entries c acc = .next c1 acc1 → c1 = c := by
  intro entries
  induction entries with
  | nil =>
    intro c acc c1 acc1 h
    unfold probeEntries at h
    cases h; rfl
  | cons e rest ih =>
    intro c acc c1 acc1 h
    unfold probeEntries at h
    by_cases hd : e.isDir
    · rw [if_pos hd] at h
      exact ih c _ h
    · rw [if_neg hd] at h
      cases hip : isPathImage (joinPath dirPath e.name) c fs with
      | mk b c2 =>
        rw [hip] at h
        cases b
        · simp only [] at h
          rw [ih c2 acc h, isPathImage_false_cache hip]
        · simp at h

theorem probeEntries_found {fs : FS} {dirPath rootPath : String} {iapFuel : Nat} :
    ∀ (entries : List DirEntry) (c : scanner_cache) (acc : List String)
      {o : Option scanner_cache},
      probeEntries fs dirPath rootPath iapFuel entries c acc = .foundHere o →
      ∃ c1, (∀ q, album_contains_photo c1 q = album_contains_photo c q) ∧
        insert_album_paths iapFuel dirPath rootPath c1 true = o := by
  intro entries
  induction entries with
  | nil =>
    intro c acc o h
    unfold probeEntries at h
    cases h
  | cons e rest ih =>
    intro c acc o h
    unfold probeEntries at h
    by_cases hd : e.isDir
    · rw [if_pos hd] at h
      exact ih c _ h
    · rw [if_neg hd] at h
      cases hip : isPathImage (joinPath dirPath e.name) c fs with
      | mk b c2 =>
        rw [hip] at h
        cases b
        · simp only [] at h
          obtain ⟨c1, hp, hi⟩ := ih c2 acc h
          exact ⟨c1, fun q => by rw [hp q, isPathImage_false_cache hip], hi⟩
        · simp only [EntriesResult.foundHere.injEq] at h
          exact ⟨c2, isPathImage_true_album hip, h⟩

theorem probeLoop_found {fs : FS} {rootPath : String} :
    ∀ (fuel : Nat) (queue scanned : List String) (c : scanner_cache)
      {D : String} {sc : List String} {c1 : scanner_cache},
      probeLoop fs rootPath fuel queue scanned c = .found D sc c1 →
      ∃ c2 f, (∀ q, album_contains_photo c2 q = album_contains_photo c q) ∧
        insert_album_paths f D rootPath c2 true = some c1 := by
  intro fuel
  induction fuel with
  | zero => intro queue scanned c D sc c1 h; simp [probeLoop] at h
  | succ f ih =>
    intro queue scanned c D sc c1 h
    cases queue with
    | nil => simp [probeLoop] at h
    | cons dirPath rest =>
      unfold probeLoop at h
      cases hrd : fs.readDir dirPath with
      | none => rw [hrd] at h; simp at h
      | some dirContent =>
        rw [hrd] at h
        simp only [] at h
        cases hpe : probeEntries fs dirPath rootPath f dirContent c [] with
        | next c2 newDirs =>
          rw [hpe] at h
          have hc2 : c2 = c := probeEntries_next_cache dirContent c [] hpe
          obtain ⟨c3, f2, hp, hi⟩ := ih (rest ++ newDirs) _ c2 h
          exact ⟨c3, f2, fun q => (hp q).trans (by rw [hc2]), hi⟩
        | foundHere o =>
          rw [hpe] at h
          cases o with
          | none => simp at h
          | some c2 =>
            simp only [ProbeOutcome.found.injEq] at h
            obtain ⟨hD, _, hc⟩ := h
            obtain ⟨c3, hp, hi⟩ := probeEntries_found dirContent c [] hpe
            refine ⟨c3, f, hp, ?_⟩
            rw [← hD, hi, hc]

theorem probeLoop_listError {fs : FS} {rootPath : String} :
    ∀ (fuel : Nat) (queue scanned : List String) (c : scanner_cache)
      {sc : List String} {c1 : scanner_cache},
      probeLoop fs rootPath fuel queue scanned c = .listError sc c1 → c1 = c := by
  intro fuel
  induction fuel with
  | zero => intro queue scanned c sc c1 h; simp [probeLoop] at h
  | succ f ih =>
    intro queue scanned c sc c1 h
    cases queue with
    | nil => simp [probeLoop] at h
    | cons dirPath rest =>
      unfold probeLoop at h
      cases hrd : fs.readDir dirPath with
      | none =>
        rw [hrd] at h
        simp only [ProbeOutcome.listError.injEq] at h
        exact h.2.symm
      | some dirContent =>
        rw [hrd] at h
        simp only [] at h
        cases hpe : probeEntries fs dirPath rootPath f dirContent c [] with
        | next c2 newDirs =>
          rw [hpe] at h
          rw [ih (rest ++ newDirs) _ c2 h, probeEntries_next_cache dirContent c [] hpe]
        | foundHere o =>
          rw [hpe] at h
          cases o with
          | none => simp at h
          | some c2 => simp at h

theorem probeLoop_exhausted_mem {fs : FS} {rootPath : String} :
    ∀ (fuel : Nat) (queue scanned : List String) (c : scanner_cache)
      {sc : List String} {c1 : scanner_cache},
      probeLoop fs rootPath fuel queue scanned c = .exhausted sc c1 →
      ∀ d, d ∈ scanned ∨ d ∈ queue → d ∈ sc := by
  intro fuel
  induction fuel with
  | zero => intro queue scanned c sc c1 h; simp [probeLoop] at h
  | succ f ih =>
    intro queue scanned c sc c1 h d hd
    cases queue with
    | nil =>
      unfold probeLoop at h
      cases h
      rcases hd with h1 | h1
      · exact h1
      · simp at h1
    | cons dirPath rest =>
      unfold probeLoop at h
      cases hrd : fs.readDir dirPath with
      | none => rw [hrd] at h; simp at h
      | some dirContent =>
        rw [hrd] at h
        simp only [] at h
        cases hpe : probeEntries fs dirPath rootPath f dirContent c [] with
        | next c2 newDirs =>
          rw [hpe] at h
          refine ih (rest ++ newDirs) (scanned ++ [dirPath]) c2 h d ?_
          rcases hd with h1 | h1
          · exact Or.inl (List.mem_append_left _ h1)
          · rcases List.mem_cons.mp h1 with h2 | h2
            · exact Or.inl (List.mem_append_right _ (by simp [h2]))
            · exact Or.inr (List.mem_append_left _ h2)
        | foundHere o =>
          rw [hpe] at h
          cases o with
          | none => simp at h
          | some c2 => simp at h

theorem insert_false_all_marks :
    ∀ (l : List String) (c : scanner_cache) (q : String),
      album_contains_photo (insert_false_all l c) q =
        if q ∈ l then some false else album_contains_photo c q := by
  intro l
  induction l with
  | nil => intro c q; simp [insert_false_all]
  | cons a l ih =>
    intro c q
    show album_contains_photo (insert_false_all l (insert_album_path c a false)) q = _
    rw [ih, album_contains_photo_insert_album]
    by_cases h1 : q ∈ l
    · simp [h1, List.mem_cons]
    · by_cases h2 : q = a <;> simp [h1, h2, List.mem_cons]

/-! ## Claim C1 -/

/-- C1 is false as stated: for the probe of `fs1` rooted at `/gallery`, whose
first supported image is found at `/gallery/x/y/z/img.jpg`, the probe
returns true but the root `/gallery` itself is NOT marked in the
ContainmentCache (the `insert_album_paths` loop stops before inserting the
root), while `/gallery/x`, `/gallery/x/y` and `/gallery/x/y/z` are marked
true — the claim's "up to and including R" and its list of exactly four
marked entries both fail at the root. -/
theorem probe_root_unmarked_on_single_deep_image :
    (directoryContainsPhotos fs1 10 "/gallery" []).map
      (fun r => (r.1, album_contains_photo r.2 "/gallery",
        album_contains_photo r.2 "/gallery/x",
        album_contains_photo r.2 "/gallery/x/y",
        album_contains_photo r.2 "/gallery/x/y/z")) =
      some (true, none, some true, some true, some true) := by decide

/-- C1 (amended): for every probe rooted at directory R that finds its first
supported image in directory D, the containment probe returns true
immediately and marks D and every ancestor of D up to but EXCLUDING R as
containing a photo in the ContainmentCache, without listing any further
queued directories; the entries marked true are exactly the `path.Dir`
iterates of (the cleaned) D strictly before reaching (the cleaned) R. -/
theorem probe_found_marks_strict_ancestors (fs : FS) (R : String) (fuel : Nat)
    (c0 : scanner_cache) (D : String) (sc : List String) (c1 : scanner_cache)
    (hmiss : album_contains_photo c0 R = none)
    (hrun : probeLoop fs R fuel [R] [] c0 = .found D sc c1) :
    directoryContainsPhotos fs fuel R c0 = some (true, c1) ∧
    ∃ f, (∀ q, album_contains_photo c1 q =
        if q ∈ ancestorChain (cleanPath R) f (cleanPath D) then some true
        else album_contains_photo c0 q) ∧
      (¬ cleanPath R = "." →
        ¬ cleanPath R ∈ ancestorChain (cleanPath R) f (cleanPath D)) := by
  constructor
  · unfold directoryContainsPhotos
    rw [hmiss, hrun]
  · obtain ⟨c2, f, hp, hi⟩ := probeLoop_found fuel [R] [] c0 hrun
    unfold insert_album_paths at hi
    refine ⟨f, ?_, fun hr => root_not_mem_ancestorChain f _ _ hr⟩
    intro q
    rw [insert_album_paths_loop_marks f _ _ c2 c1 true hi q]
    by_cases hq : q ∈ ancestorChain (cleanPath R) f (cleanPath D) <;> simp [hq, hp q]

/-- Witness for the amended C1 at the concrete filesystem `fs1`. -/
theorem probe_found_marks_strict_ancestors_witness :
    (album_contains_photo ([] : scanner_cache) "/gallery" = none ∧
      probeLoop fs1 "/gallery" 10 ["/gallery"] [] [] =
        .found "/gallery/x/y/z"
          ["/gallery", "/gallery/x", "/gallery/x/y", "/gallery/x/y/z"] probeFoundCache) ∧
    (directoryContainsPhotos fs1 10 "/gallery" [] = some (true, probeFoundCache) ∧
      ∃ f, (∀ q, album_contains_photo probeFoundCache q =
          if q ∈ ancestorChain (cleanPath "/gallery") f (cleanPath "/gallery/x/y/z")
          then some true else album_contains_photo ([] : scanner_cache) q) ∧
        (¬ cleanPath "/gallery" = "." →
          ¬ cleanPath "/gallery" ∈ ancestorChain (cleanPath "/gallery") f
              (cleanPath "/gallery/x/y/z"))) :=
  ⟨⟨by decide, by decide⟩,
    probe_found_marks_strict_ancestors fs1 "/gallery" 10 [] "/gallery/x/y/z"
      ["/gallery", "/gallery/x", "/gallery/x/y", "/gallery/x/y/z"] probeFoundCache
      (by decide) (by decide)⟩

/-! ## Claim C8 -/

/-- C8: for every probe whose breadth-first search exhausts its directory
queue without classifying any file as a supported image, the probe returns
false and every directory dequeued during that probe (including the probe's
root) is recorded as false in the ContainmentCache. -/
theorem probe_exhausted_marks_false (fs : FS) (R : String) (fuel : Nat)
    (c0 : scanner_cache) (sc : List String) (c1 : scanner_cache)
    (hmiss : album_contains_photo c0 R = none)
    (hrun : probeLoop fs R fuel [R] [] c0 = .exhausted sc c1) :
    directoryContainsPhotos fs fuel R c0 = some (false, insert_false_all sc c1) ∧
    R ∈ sc ∧
    ∀ d, d ∈ sc → album_contains_photo (insert_false_all sc c1) d = some false := by
  refine ⟨?_, ?_, ?_⟩
  · unfold directoryContainsPhotos
    rw [hmiss, hrun]
  · exact probeLoop_exhausted_mem fuel [R] [] c0 hrun R (Or.inr (by simp))
  · intro d hd
    rw [insert_false_all_marks]
    simp [hd]

/-- Witness for C8 at the concrete filesystem `fs2`. -/
theorem probe_exhausted_marks_false_witness :
    (album_contains_photo ([] : scanner_cache) "/empty" = none ∧
      probeLoop fs2 "/empty" 10 ["/empty"] [] [] =
        .exhausted ["/empty", "/empty/d"] []) ∧
    (directoryContainsPhotos fs2 10 "/empty" [] =
        some (false, insert_false_all ["/empty", "/empty/d"] []) ∧
      "/empty" ∈ ["/empty", "/empty/d"] ∧
      ∀ d, d ∈ ["/empty", "/empty/d"] →
        album_contains_photo (insert_false_all ["/empty", "/empty/d"] []) d = some false) :=
  ⟨⟨by decide, by decide⟩,
    probe_exhausted_marks_false fs2 "/empty" 10 [] ["/empty", "/empty/d"] []
      (by decide) (by decide)⟩

/-! ## Claim C9 -/

/-- C9: for every probe in which listing some dequeued directory fails, the
probe returns false immediately and the cache it returns is the very cache
it was called with — nothing was written for the failing directory nor for
any directory dequeued earlier in the same probe. -/
theorem probe_listError_no_cache_writes (fs : FS) (R : String) (fuel : Nat)
    (c0 : scanner_cache) (sc : List String) (c1 : scanner_cache)
    (hmiss : album_contains_photo c0 R = none)
    (hrun : probeLoop fs R fuel [R] [] c0 = .listError sc c1) :
    directoryContainsPhotos fs fuel R c0 = some (false, c0) := by
  unfold directoryContainsPhotos
  rw [hmiss, hrun, probeLoop_listError fuel [R] [] c0 hrun]

/-- Witness for C9 at the concrete filesystem `fs3`: the probe lists `/err`
(classifying and rejecting `/err/pic.bin` on the way), then fails to list
`/err/bad`, and returns false with the cache exactly as it started. -/
theorem probe_listError_no_cache_writes_witness :
    (album_contains_photo ([] : scanner_cache) "/err" = none ∧
      probeLoop fs3 "/err" 10 ["/err"] [] [] = .listError ["/err", "/err/bad"] []) ∧
    directoryContainsPhotos fs3 10 "/err" [] = some (false, []) :=
  ⟨⟨by decide, by decide⟩,
    probe_listError_no_cache_writes fs3 "/err" 10 [] ["/err", "/err/bad"] []
      (by decide) (by decide)⟩

/-! ## Claim C10 -/

/-- C10: the ancestor-marking loop `insert_album_paths(end_path, root,
verdict)` terminates for every `end_path` such that repeatedly applying
`path.Dir` to the cleaned `end_path` reaches the cleaned root before
reaching `"."`; under that precondition any fuel beyond the iterate count
makes the modelled loop return (it performs finitely many cache insertions
and exits). -/
theorem insert_album_paths_terminates (end_path root : String) (c : scanner_cache)
    (v : Bool) (n fuel : Nat)
    (h1 : dirOfPath^[n] (cleanPath end_path) = cleanPath root)
    (h2 : ¬ cleanPath root = ".") (h3 : n < fuel) :
    ∃ c1, insert_album_paths fuel end_path root c v = some c1 := by
  unfold insert_album_paths
  exact insert_album_paths_loop_term n _ _ c v fuel h1 h2 h3

/-- Witness for C10: from `/a/b/c`, two `path.Dir` steps reach the root
`/a`, and fuel 3 suffices for the loop to return. -/
theorem insert_album_paths_terminates_witness :
    (dirOfPath^[2] (cleanPath "/a/b/c") = cleanPath "/a" ∧
      ¬ cleanPath "/a" = "." ∧ 2 < 3) ∧
    ∃ c1, insert_album_paths 3 "/a/b/c" "/a" [] true = some c1 :=
  ⟨⟨by decide, by decide, by decide⟩,
    insert_album_paths_terminates "/a/b/c" "/a" [] true 2 3 (by decide) (by decide)
      (by decide)⟩

/-! ## Claim C6 -/

/-- C6: for every file path whose open (`files p = none`) or header read
(`readOk = false`) fails during classification, `isPathImage` returns false
with the cache completely unchanged; consequently a later independent call
for the same path consults the filesystem again, and succeeds if the
transient failure has cleared. -/
theorem isPathImage_read_failure_no_cache (p : String) (c : scanner_cache) (fs : FS)
    (hmiss : get_photo_type c p = none)
    (hfail : fs.files p = none ∨ ∃ meta, fs.files p = some meta ∧ meta.readOk = false) :
    isPathImage p c fs = (false, c) ∧
    ∀ (fs2 : FS) (meta2 : FileMeta) (mime : String),
      fs2.files p = some meta2 → meta2.readOk = true → meta2.sniff = some mime →
      mime ∈ SupportedMimetypes → (isPathImage p c fs2).1 = true := by
  constructor
  · unfold isPathImage
    rw [hmiss]
    rcases hfail with h | ⟨meta, hm, hr⟩
    · rw [h]
    · rw [hm]
      simp [hr]
  · intro fs2 meta2 mime hm hr hs hmem
    unfold isPathImage
    rw [hmiss, hm]
    simp [hr, hs, hmem]

/-- Witness for C6: opening `/gallery/missing.jpg` fails on `fs1`, and the
classification leaves the empty cache empty. -/
theorem isPathImage_read_failure_no_cache_witness :
    (get_photo_type ([] : scanner_cache) "/gallery/missing.jpg" = none ∧
      fs1.files "/gallery/missing.jpg" = none) ∧
    isPathImage "/gallery/missing.jpg" [] fs1 = (false, []) :=
  ⟨⟨by decide, by decide⟩,
    (isPathImage_read_failure_no_cache "/gallery/missing.jpg" [] fs1 (by decide)
      (Or.inl (by decide))).1⟩

/-! ## Claim C5 -/

theorem fileLoop_no_cacheMiss (env : ScanEnv) (albumPath : String) (albumId : Nat) :
    ∀ (entries : List DirEntry) (st st2 : ScanState),
      ¬ fileLoop env albumPath albumId entries st = .cacheMiss st2 := by
  intro entries
  induction entries with
  | nil => intro st st2 h; simp [fileLoop] at h
  | cons e rest ih =>
    intro st st2 h
    unfold fileLoop at h
    simp only [] at h
    split at h
    · exact ih _ st2 h
    · split at h
      · exact ih _ st2 h
      · rename_i c1 hip
        split at h
        · rename_i hg
          have hsome := isPathImage_true_entry hip
          rw [hg] at hsome
          simp at hsome
        · split at h
          · exact ih _ st2 h
          · simp at h

theorem scanLoop_no_cacheMiss (env : ScanEnv) (uid : Nat) :
    ∀ (fuel : Nat) (queue : List ScanTask) (st st2 : ScanState),
      ¬ scanLoop env uid fuel queue st = .abortedCacheMiss st2 := by
  intro fuel
  induction fuel with
  | zero => intro queue st st2 h; simp [scanLoop] at h
  | succ f ih =>
    intro queue st st2 h
    cases queue with
    | nil => simp [scanLoop] at h
    | cons task rest =>
      unfold scanLoop at h
      simp only [] at h
      split at h
      · simp at h
      · split at h
        · simp at h
        · split at h
          · rename_i st3 hfl
            exact fileLoop_no_cacheMiss env task.path _ _ _ st3 hfl
          · simp at h
          · split at h
            · simp at h
            · exact ih _ _ st2 h

/-- C5: whenever `isPathImage` answers true for a path, a type-cache entry
for that path exists in the cache it returns, and consequently the branch of
the per-file loop that aborts the scan because the content type is missing
from the cache (`abortedCacheMiss`, modelling `log.Println("Content type not
found from cache"); return`) is unreachable in the single-threaded scan. -/
theorem isPathImage_true_caches_type :
    (∀ (p : String) (c : scanner_cache) (fs : FS),
      (isPathImage p c fs).1 = true → (get_photo_type (isPathImage p c fs).2 p).isSome) ∧
    ∀ (env : ScanEnv) (uid fuel : Nat) (queue : List ScanTask) (st st2 : ScanState),
      ¬ scanLoop env uid fuel queue st = .abortedCacheMiss st2 := by
  constructor
  · intro p c fs h
    cases hip : isPathImage p c fs with
    | mk b c1 =>
      rw [hip] at h
      cases b
      · simp at h
      · exact isPathImage_true_entry hip
  · exact fun env uid fuel queue st st2 => scanLoop_no_cacheMiss env uid fuel queue st st2

/-- Witness for C5 at the image of `fs1`: the classification answers true
and the returned cache holds a type entry for the path. -/
theorem isPathImage_true_caches_type_witness :
    ((isPathImage "/gallery/x/y/z/img.jpg" [] fs1).1 = true) ∧
    (get_photo_type (isPathImage "/gallery/x/y/z/img.jpg" [] fs1).2
      "/gallery/x/y/z/img.jpg").isSome :=
  ⟨by decide, isPathImage_true_caches_type.1 "/gallery/x/y/z/img.jpg" [] fs1 (by decide)⟩

/-! ## Claim C3 -/

/-- C3: for every prior album table and every completed scan whose
visited-path list is `scanned` (never empty for a completed scan, since the
root is recorded before anything else) with album ids unique (the table's
primary key), `cleanupCache` leaves exactly the rows whose owner differs or
whose path was visited — i.e. it deletes exactly the owner's stale rows —
and the conclusion holds for EVERY cache-folder removal oracle `removeOk`,
so a failed `os.RemoveAll` never prevents the row deletion. -/
theorem cleanupCache_deletes_exactly_stale (albums : List AlbumRow) (scanned : List String)
    (uid : Nat) (removeOk : Nat → Bool)
    (hne : ¬ scanned = [])
    (hnodup : (albums.map (fun r => r.album_id)).Nodup) :
    (cleanupCache albums scanned uid removeOk).1 =
      albums.filter (fun r => !(staleFilter uid scanned r)) := by
  unfold cleanupCache
  rw [if_neg (by simp [List.isEmpty_iff, hne])]
  simp only []
  by_cases hid : ((albums.filter (staleFilter uid scanned)).map (fun r => r.album_id)).isEmpty
  · rw [if_pos hid]
    have hnil : albums.filter (staleFilter uid scanned) = [] :=
      List.map_eq_nil_iff.mp (List.isEmpty_iff.mp hid)
    have hall := List.filter_eq_nil_iff.mp hnil
    exact (List.filter_eq_self.mpr (fun r hr => by simp [hall r hr])).symm
  · rw [if_neg hid]
    refine List.filter_congr ?_
    intro r hr
    by_cases hst : staleFilter uid scanned r = true
    · have hmem : r.album_id ∈
          (albums.filter (staleFilter uid scanned)).map (fun r2 => r2.album_id) :=
        List.mem_map_of_mem _ (List.mem_filter.mpr ⟨hr, hst⟩)
      simp [hmem, hst]
    · have hnmem : ¬ r.album_id ∈
          (albums.filter (staleFilter uid scanned)).map (fun r2 => r2.album_id) := by
        intro hmem
        obtain ⟨r2, hr2, hid2⟩ := List.mem_map.mp hmem
        have hr2a := List.mem_filter.mp hr2
        have hrr : r2 = r := List.inj_on_of_nodup_map hnodup hr2a.1 hr hid2
        rw [hrr] at hr2a
        exact hst hr2a.2
      simp [hnmem, hst]

/-- Witness for C3: the second scan visits only `/A` and `/A/B`; removal of
album 3's derived-cache folder FAILS (`removeOk 3 = false`), yet the stale
row 3 is deleted and rows 1 and 2 survive unchanged. -/
theorem cleanupCache_deletes_exactly_stale_witness :
    (¬ ["/A", "/A/B"] = ([] : List String) ∧
      (albumsABC.map (fun r => r.album_id)).Nodup) ∧
    (cleanupCache albumsABC ["/A", "/A/B"] 7 (fun j => ¬ j = 3)).1 =
      albumsABC.filter (fun r => !(staleFilter 7 ["/A", "/A/B"] r)) ∧
    (cleanupCache albumsABC ["/A", "/A/B"] 7 (fun j => ¬ j = 3)).1 =
      [⟨1, "A", none, 7, "/A"⟩, ⟨2, "B", some 1, 7, "/A/B"⟩] :=
  ⟨⟨by decide, by decide⟩,
    cleanupCache_deletes_exactly_stale albumsABC ["/A", "/A/B"] 7 (fun j => ¬ j = 3)
      (by decide) (by decide),
    by decide⟩

/-! ## Claim C4 -/

theorem fileLoop_state (env : ScanEnv) (albumPath : String) (albumId : Nat) :
    ∀ (entries : List DirEntry) (st : ScanState) (r : FileLoopResult),
      fileLoop env albumPath albumId entries st = r →
      r.state.db.albums = st.db.albums ∧
      r.state.scanned = st.scanned ∧
      (∀ ph, ph ∈ st.db.photos → ph ∈ r.state.db.photos) ∧
      (∀ ph, ph ∈ r.state.db.photos → ph ∈ st.db.photos ∨ env.processOk ph.path = true) := by
  intro entries
  induction entries with
  | nil =>
    intro st r h
    unfold fileLoop at h
    cases h
    exact ⟨rfl, rfl, fun ph hp => hp, fun ph hp => Or.inl hp⟩
  | cons e rest ih =>
    intro st r h
    unfold fileLoop at h
    simp only [] at h
    split at h
    · exact ih st r h
    · split at h
      · rename_i c1 hip
        exact ih ⟨st.db, c1, st.scanned, st.processed⟩ r h
      · rename_i c1 hip
        split at h
        · cases h
          exact ⟨rfl, rfl, fun ph hp => hp, fun ph hp => Or.inl hp⟩
        · rename_i ct hg
          split at h
          · rename_i hpo
            obtain ⟨h1, h2, h3, h4⟩ := ih ⟨⟨st.db.albums,
              st.db.photos ++ [⟨joinPath albumPath e.name, albumId, ct⟩]⟩, c1,
              st.scanned, st.processed ++ [joinPath albumPath e.name]⟩ r h
            refine ⟨h1, h2, fun ph hp => h3 ph (List.mem_append_left _ hp),
              fun ph hp => ?_⟩
            rcases h4 ph hp with h5 | h5
            · rcases List.mem_append.mp h5 with h6 | h6
              · exact Or.inl h6
              · rcases List.mem_singleton.mp h6 with rfl
                exact Or.inr hpo
            · exact Or.inr h5
          · cases h
            exact ⟨rfl, rfl, fun ph hp => hp, fun ph hp => Or.inl hp⟩

theorem fileLoop_procFail (env : ScanEnv) (albumPath : String) (albumId : Nat) :
    ∀ (entries : List DirEntry) (st : ScanState) (p : String) (st2 : ScanState),
      fileLoop env albumPath albumId entries st = .procFail p st2 →
      env.processOk p = false := by
  intro entries
  induction entries with
  | nil => intro st p st2 h; simp [fileLoop] at h
  | cons e rest ih =>
    intro st p st2 h
    unfold fileLoop at h
    simp only [] at h
    split at h
    · exact ih st p st2 h
    · split at h
      · rename_i c1 hip
        exact ih ⟨st.db, c1, st.scanned, st.processed⟩ p st2 h
      · rename_i c1 hip
        split at h
        · simp at h
        · rename_i ct hg
          split at h
          · rename_i hpo
            exact ih _ p st2 h
          · rename_i hpo
            simp only [FileLoopResult.procFail.injEq] at h
            rw [← h.1]
            exact eq_false_of_ne_true hpo

theorem insertIgnoreAlbum_mono (albums : List AlbumRow) (title : String)
    (parent : Option Nat) (owner : Nat) (p : String) (r : AlbumRow) (hr : r ∈ albums) :
    r ∈ insertIgnoreAlbum albums title parent owner p := by
  unfold insertIgnoreAlbum
  split
  · exact hr
  · exact List.mem_append_left _ hr

theorem scanLoop_abortedProcess (env : ScanEnv) (uid : Nat) :
    ∀ (fuel : Nat) (queue : List ScanTask) (st : ScanState) (p : String) (st2 : ScanState),
      scanLoop env uid fuel queue st = .abortedProcess p st2 →
      (∀ r, r ∈ st.db.albums → r ∈ st2.db.albums) ∧
      (∀ ph, ph ∈ st.db.photos → ph ∈ st2.db.photos) ∧
      (∀ ph, ph ∈ st2.db.photos → ph ∈ st.db.photos ∨ env.processOk ph.path = true) ∧
      env.processOk p = false := by
  intro fuel
  induction fuel with
  | zero => intro queue st p st2 h; simp [scanLoop] at h
  | succ f ih =>
    intro queue st p st2 h
    cases queue with
    | nil => simp [scanLoop] at h
    | cons task rest =>
      unfold scanLoop at h
      simp only [] at h
      split at h
      · simp at h
      · split at h
        · simp at h
        · rename_i albumId hsel
          split at h
          · simp at h
          · rename_i p3 st3 hfl
            simp only [ScanOutcome.abortedProcess.injEq] at h
            obtain ⟨hp3, hst3⟩ := h
            subst hp3
            subst hst3
            obtain ⟨h1, _, h3, h4⟩ := fileLoop_state env task.path albumId _ _ _ hfl
            simp only [FileLoopResult.state] at h1 h3 h4
            refine ⟨fun r hr => ?_, fun ph hp => h3 ph hp, fun ph hp => h4 ph hp,
              fileLoop_procFail env task.path albumId _ _ _ _ hfl⟩
            rw [h1]
            show r ∈ insertIgnoreAlbum st.db.albums (basePath task.path)
              task.parentId uid task.path
            exact insertIgnoreAlbum_mono _ _ _ _ _ r hr
          · split at h
            · simp at h
            · rename_i st3 hfl dlr newTasks c1 hdl
              obtain ⟨i1, i2, i3, i4⟩ := ih _ _ p st2 h
              obtain ⟨h1, _, h3, h4⟩ := fileLoop_state env task.path albumId _ _ _ hfl
              simp only [FileLoopResult.state] at h1 h3 h4
              refine ⟨fun r hr => ?_, fun ph hp => i2 ph (h3 ph hp),
                fun ph hp => ?_, i4⟩
              · refine i1 r ?_
                show r ∈ st3.db.albums
                rw [h1]
                show r ∈ insertIgnoreAlbum st.db.albums (basePath task.path)
                  task.parentId uid task.path
                exact insertIgnoreAlbum_mono _ _ _ _ _ r hr
              · rcases i3 ph hp with h5 | h5
                · rcases h4 ph h5 with h6 | h6
                  · exact Or.inl h6
                  · exact Or.inr h6
                · exact Or.inr h5

/-- C4: for every scan run in which the photo-processing collaborator
returns an error for some file `p` (the run ends in `abortedProcess p`),
the per-file transaction for `p` was rolled back — any photo row for `p`
present at the abort was already in the initial store — previously
committed album and photo rows are left intact, and the run is not `done`,
so the reconciliation pass (`cleanupCache`, invoked by `scan` only on a
`done` run) did not run; the scan loop returns immediately at the failure,
dequeuing no further directories. -/
theorem scan_aborts_on_process_failure (env : ScanEnv) (user : GoUser) (fuel : Nat)
    (db0 : DB) (p : String) (st2 : ScanState)
    (h : scan env user fuel db0 = .abortedProcess p st2) :
    env.processOk p = false ∧
    (∀ r, r ∈ db0.albums → r ∈ st2.db.albums) ∧
    (∀ ph, ph ∈ db0.photos → ph ∈ st2.db.photos) ∧
    (∀ ph, ph ∈ st2.db.photos → ph ∈ db0.photos ∨ env.processOk ph.path = true) ∧
    (∀ a ct, (⟨p, a, ct⟩ : PhotoRow) ∈ st2.db.photos →
      (⟨p, a, ct⟩ : PhotoRow) ∈ db0.photos) ∧
    ¬ ∃ st3, scan env user fuel db0 = .done st3 := by
  unfold scan at h
  cases hl : scanLoop env user.id fuel [⟨user.rootPath, none⟩] ⟨db0, [], [], []⟩ with
  | done st => rw [hl] at h; simp at h
  | abortedRead d st => rw [hl] at h; simp at h
  | abortedAlbumLookup st => rw [hl] at h; simp at h
  | abortedCacheMiss st => rw [hl] at h; simp at h
  | noFuel => rw [hl] at h; simp at h
  | abortedProcess p3 st3 =>
    rw [hl] at h
    simp only [ScanOutcome.abortedProcess.injEq] at h
    obtain ⟨hp3, hst3⟩ := h
    subst hp3
    subst hst3
    obtain ⟨m1, m2, m3, m4⟩ := scanLoop_abortedProcess env user.id fuel _ _ p3 st3 hl
    refine ⟨m4, fun r hr => m1 r hr, fun ph hp => m2 ph hp, fun ph hp => m3 ph hp,
      fun a ct hp => ?_, ?_⟩
    · rcases m3 ⟨p3, a, ct⟩ hp with h5 | h5
      · exact h5
      · rw [m4] at h5
        cases h5
    · intro ⟨stx, hx⟩
      unfold scan at hx
      rw [hl] at hx
      simp at hx

/-- Witness for C4: the scan of `/r` aborts at `/r/bad.jpg`; the earlier
photo `/r/a.jpg` and the album rows (including the stale one — no
reconciliation ran) are intact, no photo row exists for the failing file,
and the queued subdirectory `/r/sub` was never visited. -/
theorem scan_aborts_on_process_failure_witness :
    (scan env4 ⟨9, "/r"⟩ 10 db4 = .abortedProcess "/r/bad.jpg" st4 ∧
      ¬ "/r/sub" ∈ st4.scanned ∧
      ¬ (⟨"/r/bad.jpg", 6, "image/jpeg"⟩ : PhotoRow) ∈ st4.db.photos) ∧
    (env4.processOk "/r/bad.jpg" = false ∧
      (∀ r, r ∈ db4.albums → r ∈ st4.db.albums) ∧
      (∀ ph, ph ∈ db4.photos → ph ∈ st4.db.photos) ∧
      (∀ ph, ph ∈ st4.db.photos → ph ∈ db4.photos ∨ env4.processOk ph.path = true) ∧
      (∀ a ct, (⟨"/r/bad.jpg", a, ct⟩ : PhotoRow) ∈ st4.db.photos →
        (⟨"/r/bad.jpg", a, ct⟩ : PhotoRow) ∈ db4.photos) ∧
      ¬ ∃ st3, scan env4 ⟨9, "/r"⟩ 10 db4 = .done st3) :=
  ⟨⟨by decide, by decide, by decide⟩,
    scan_aborts_on_process_failure env4 ⟨9, "/r"⟩ 10 db4 "/r/bad.jpg" st4 (by decide)⟩

/-! ## Claim C2 -/

/-- C2 fails on the code (code bug): the album id read back inside the album
transaction is resolved by `SELECT album_id FROM album WHERE path = ?`
(line 126 of the source) — keyed by path ONLY, not by `(ownerId, path)`.
With user 1 already owning an album at path `/photos`, user 2's scan of the
same path string inserts user 2's own row (id 2) but resolves id 1 — user
1's album — and attaches it to the photo it registers, whereas the lookup
the specification describes (`selectAlbumIdByOwnerAndPathSpec`, keyed by
owner AND path) yields user 2's own id 2. -/
theorem scan_attaches_other_users_album_id :
    (scan envShared ⟨2, "/photos"⟩ 5 dbShared).state.map (fun st => st.db.photos) =
      some [⟨"/photos/img.jpg", 1, "image/png"⟩] ∧
    (scan envShared ⟨2, "/photos"⟩ 5 dbShared).state.map (fun st => st.db.albums) =
      some [⟨1, "photos", none, 1, "/photos"⟩, ⟨2, "photos", none, 2, "/photos"⟩] ∧
    selectAlbumIdByPath
      [⟨1, "photos", none, 1, "/photos"⟩, ⟨2, "photos", none, 2, "/photos"⟩] "/photos" =
      some 1 ∧
    selectAlbumIdByOwnerAndPathSpec
      [⟨1, "photos", none, 1, "/photos"⟩, ⟨2, "photos", none, 2, "/photos"⟩] 2 "/photos" =
      some 2 := by decide

/-! ## Claim C7 -/

theorem isPathImage_unsupported_false {fs : FS} {pb : String} {meta : FileMeta}
    {mime : String} (hm : fs.files pb = some meta) (hr : meta.readOk = true)
    (hs : meta.sniff = some mime) (hmem : ¬ mime ∈ SupportedMimetypes)
    {c : scanner_cache} (hc : get_photo_type c pb = none) :
    isPathImage pb c fs = (false, c) := by
  unfold isPathImage
  rw [hc, hm]
  simp [hr, hs, hmem]

theorem isPathImage_true_get_other {q : String} {c : scanner_cache} {fs : FS}
    {c1 : scanner_cache} (h : isPathImage q c fs = (true, c1)) :
    ∀ pb, ¬ pb = q → get_photo_type c1 pb = get_photo_type c pb := by
  intro pb hpb
  unfold isPathImage at h
  cases hg : get_photo_type c q with
  | some t => rw [hg] at h; simp at h; rw [h]
  | none =>
    rw [hg] at h
    cases hf : fs.files q with
    | none => rw [hf] at h; simp at h
    | some meta =>
      rw [hf] at h
      by_cases hr : meta.readOk
      · simp [hr] at h
        cases hs : meta.sniff with
        | none => rw [hs] at h; simp at h
        | some mime =>
          rw [hs] at h
          by_cases hmem : mime ∈ SupportedMimetypes
          · simp [hmem] at h
            rw [← h, get_photo_type_insert_photo]
            simp [hpb]
          · simp [hmem] at h
      · simp [hr] at h

theorem insert_album_paths_loop_get (rp : String) (v : Bool) :
    ∀ (fuel : Nat) (curr : String) (c c1 : scanner_cache),
      insert_album_paths_loop rp v fuel curr c = some c1 →
      ∀ pb, get_photo_type c1 pb = get_photo_type c pb := by
  intro fuel
  induction fuel with
  | zero => intro curr c c1 h; simp [insert_album_paths_loop] at h
  | succ f ih =>
    intro curr c c1 h pb
    unfold insert_album_paths_loop at h
    split at h
    · rw [ih (dirOfPath curr) _ c1 h pb, get_photo_type_insert_album]
    · cases h; rfl

theorem insert_false_all_get :
    ∀ (l : List String) (c : scanner_cache) (pb : String),
      get_photo_type (insert_false_all l c) pb = get_photo_type c pb := by
  intro l
  induction l with
  | nil => intro c pb; rfl
  | cons a l ih =>
    intro c pb
    show get_photo_type (insert_false_all l (insert_album_path c a false)) pb = _
    rw [ih, get_photo_type_insert_album]

theorem probeEntries_found_get {fs : FS} {pb : String} {meta : FileMeta} {mime : String}
    (hm : fs.files pb = some meta) (hr : meta.readOk = true) (hs : meta.sniff = some mime)
    (hmem : ¬ mime ∈ SupportedMimetypes) {dirPath rootPath : String} {iapFuel : Nat} :
    ∀ (entries : List DirEntry) (c : scanner_cache) (acc : List String)
      {c2 : scanner_cache},
      probeEntries fs dirPath rootPath iapFuel entries c acc = .foundHere (some c2) →
      get_photo_type c pb = none → get_photo_type c2 pb = none := by
  intro entries
  induction entries with
  | nil => intro c acc c2 h; unfold probeEntries at h; cases h
  | cons e rest ih =>
    intro c acc c2 h hc
    unfold probeEntries at h
    simp only [] at h
    split at h
    · exact ih c _ h hc
    · rename_i hd
      cases hip : isPathImage (joinPath dirPath e.name) c fs with
      | mk b c1 =>
        rw [hip] at h
        cases b
        · simp only [] at h
          refine ih c1 acc h ?_
          rw [isPathImage_false_cache hip]
          exact hc
        · simp only [EntriesResult.foundHere.injEq] at h
          have hc1 : get_photo_type c1 pb = none := by
            by_cases hq : pb = joinPath dirPath e.name
            · rw [← hq] at hip
              rw [isPathImage_unsupported_false hm hr hs hmem hc] at hip
              simp at hip
            · rw [isPathImage_true_get_other hip pb hq]
              exact hc
          rw [insert_album_paths_loop_get _ _ _ _ _ _ h pb]
          exact hc1

theorem probeLoop_exhausted_cache {fs : FS} {rootPath : String} :
    ∀ (fuel : Nat) (queue scanned : List String) (c : scanner_cache)
      {sc : List String} {c1 : scanner_cache},
      probeLoop fs rootPath fuel queue scanned c = .exhausted sc c1 → c1 = c := by
  intro fuel
  induction fuel with
  | zero => intro queue scanned c sc c1 h; simp [probeLoop] at h
  | succ f ih =>
    intro queue scanned c sc c1 h
    cases queue with
    | nil =>
      unfold probeLoop at h
      cases h; rfl
    | cons dirPath rest =>
      unfold probeLoop at h
      cases hrd : fs.readDir dirPath with
      | none => rw [hrd] at h; simp at h
      | some dirContent =>
        rw [hrd] at h
        simp only [] at h
        cases hpe : probeEntries fs dirPath rootPath f dirContent c [] with
        | next c2 newDirs =>
          rw [hpe] at h
          rw [ih (rest ++ newDirs) _ c2 h, probeEntries_next_cache dirContent c [] hpe]
        | foundHere o =>
          rw [hpe] at h
          cases o with
          | none => simp at h
          | some c2 => simp at h

theorem probeLoop_found_get {fs : FS} {pb : String} {meta : FileMeta} {mime : String}
    (hm : fs.files pb = some meta) (hr : meta.readOk = true) (hs : meta.sniff = some mime)
    (hmem : ¬ mime ∈ SupportedMimetypes) {rootPath : String} :
    ∀ (fuel : Nat) (queue scanned : List String) (c : scanner_cache)
      {D : String} {sc : List String} {c1 : scanner_cache},
      probeLoop fs rootPath fuel queue scanned c = .found D sc c1 →
      get_photo_type c pb = none → get_photo_type c1 pb = none := by
  intro fuel
  induction fuel with
  | zero => intro queue scanned c D sc c1 h; simp [probeLoop] at h
  | succ f ih =>
    intro queue scanned c D sc c1 h hc
    cases queue with
    | nil => simp [probeLoop] at h
    | cons dirPath rest =>
      unfold probeLoop at h
      cases hrd : fs.readDir dirPath with
      | none => rw [hrd] at h; simp at h
      | some dirContent =>
        rw [hrd] at h
        simp only [] at h
        cases hpe : probeEntries fs dirPath rootPath f dirContent c [] with
        | next c2 newDirs =>
          rw [hpe] at h
          refine ih (rest ++ newDirs) _ c2 h ?_
          rw [probeEntries_next_cache dirContent c [] hpe]
          exact hc
        | foundHere o =>
          rw [hpe] at h
          cases o with
          | none => simp at h
          | some c2 =>
            simp only [ProbeOutcome.found.injEq] at h
            rw [← h.2.2]
            exact probeEntries_found_get hm hr hs hmem dirContent c [] hpe hc

theorem dcp_pres_get {fs : FS} {pb : String} {meta : FileMeta} {mime : String}
    (hm : fs.files pb = some meta) (hr : meta.readOk = true) (hs : meta.sniff = some mime)
    (hmem : ¬ mime ∈ SupportedMimetypes) (fuel : Nat) (root : String) :
    ∀ (c : scanner_cache) (b : Bool) (c1 : scanner_cache),
      directoryContainsPhotos fs fuel root c = some (b, c1) →
      get_photo_type c pb = none → get_photo_type c1 pb = none := by
  intro c b c1 h hc
  unfold directoryContainsPhotos at h
  cases hac : album_contains_photo c root with
  | some v => rw [hac] at h; simp at h; rw [← h.2]; exact hc
  | none =>
    rw [hac] at h
    cases hpl : probeLoop fs root fuel [root] [] c with
    | found D sc c2 =>
      rw [hpl] at h
      simp at h
      rw [← h.2]
      exact probeLoop_found_get hm hr hs hmem fuel [root] [] c hpl hc
    | exhausted sc c2 =>
      rw [hpl] at h
      simp at h
      rw [← h.2, insert_false_all_get, probeLoop_exhausted_cache fuel [root] [] c hpl]
      exact hc
    | listError sc c2 =>
      rw [hpl] at h
      simp at h
      rw [← h.2, probeLoop_listError fuel [root] [] c hpl]
      exact hc
    | noFuel => rw [hpl] at h; simp at h

theorem dirLoop_pres_get {env : ScanEnv} {pb : String} {meta : FileMeta} {mime : String}
    (hm : env.fs.files pb = some meta) (hr : meta.readOk = true)
    (hs : meta.sniff = some mime) (hmem : ¬ mime ∈ SupportedMimetypes)
    {fuel : Nat} {albumPath : String} {albumId : Nat} :
    ∀ (entries : List DirEntry) (c : scanner_cache) (acc : List ScanTask)
      {newTasks : List ScanTask} {c1 : scanner_cache},
      dirLoop env fuel albumPath albumId entries c acc = .ok newTasks c1 →
      get_photo_type c pb = none → get_photo_type c1 pb = none := by
  intro entries
  induction entries with
  | nil =>
    intro c acc newTasks c1 h hc
    unfold dirLoop at h
    cases h
    exact hc
  | cons e rest ih =>
    intro c acc newTasks c1 h hc
    unfold dirLoop at h
    simp only [] at h
    split at h
    · cases hdc : directoryContainsPhotos env.fs fuel (joinPath albumPath e.name) c with
      | none => rw [hdc] at h; simp at h
      | some r =>
        rw [hdc] at h
        cases r with
        | mk b c2 =>
          cases b
          · simp only [] at h
            exact ih c2 acc h (dcp_pres_get hm hr hs hmem fuel _ c false c2 hdc hc)
          · simp only [] at h
            exact ih c2 _ h (dcp_pres_get hm hr hs hmem fuel _ c true c2 hdc hc)
    · exact ih c acc h hc

theorem fileLoop_pres {env : ScanEnv} {pb : String} {meta : FileMeta} {mime : String}
    (hm : env.fs.files pb = some meta) (hr : meta.readOk = true)
    (hs : meta.sniff = some mime) (hmem : ¬ mime ∈ SupportedMimetypes)
    {albumPath : String} {albumId : Nat} :
    ∀ (entries : List DirEntry) (st : ScanState) (r : FileLoopResult),
      fileLoop env albumPath albumId entries st = r →
      get_photo_type st.cache pb = none → ¬ pb ∈ st.processed →
      get_photo_type r.state.cache pb = none ∧ ¬ pb ∈ r.state.processed := by
  intro entries
  induction entries with
  | nil =>
    intro st r h hc hp
    unfold fileLoop at h
    cases h
    exact ⟨hc, hp⟩
  | cons e rest ih =>
    intro st r h hc hp
    unfold fileLoop at h
    simp only [] at h
    split at h
    · exact ih st r h hc hp
    · split at h
      · rename_i c1 hip
        refine ih ⟨st.db, c1, st.scanned, st.processed⟩ r h ?_ hp
        show get_photo_type c1 pb = none
        rw [isPathImage_false_cache hip]
        exact hc
      · rename_i c1 hip
        have hq : ¬ pb = joinPath albumPath e.name := by
          intro hq
          rw [← hq] at hip
          rw [isPathImage_unsupported_false hm hr hs hmem hc] at hip
          simp at hip
        have hc1 : get_photo_type c1 pb = none := by
          rw [isPathImage_true_get_other hip pb hq]
          exact hc
        have hp1 : ¬ pb ∈ st.processed ++ [joinPath albumPath e.name] := by
          intro hmem2
          rcases List.mem_append.mp hmem2 with h5 | h5
          · exact hp h5
          · exact hq (List.mem_singleton.mp h5)
        split at h
        · cases h
          exact ⟨hc1, hp⟩
        · rename_i ct hg
          split at h
          · exact ih ⟨⟨st.db.albums,
              st.db.photos ++ [⟨joinPath albumPath e.name, albumId, ct⟩]⟩, c1,
              st.scanned, st.processed ++ [joinPath albumPath e.name]⟩ r h hc1 hp1
          · cases h
            exact ⟨hc1, hp1⟩

theorem scanLoop_pres {env : ScanEnv} {pb : String} {meta : FileMeta} {mime : String}
    (hm : env.fs.files pb = some meta) (hr : meta.readOk = true)
    (hs : meta.sniff = some mime) (hmem : ¬ mime ∈ SupportedMimetypes) (uid : Nat) :
    ∀ (fuel : Nat) (queue : List ScanTask) (st stf : ScanState),
      (scanLoop env uid fuel queue st).state = some stf →
      get_photo_type st.cache pb = none → ¬ pb ∈ st.processed →
      get_photo_type stf.cache pb = none ∧ ¬ pb ∈ stf.processed := by
  intro fuel
  induction fuel with
  | zero => intro queue st stf h hc hp; simp [scanLoop, ScanOutcome.state] at h
  | succ f ih =>
    intro queue st stf h hc hp
    cases queue with
    | nil =>
      unfold scanLoop at h
      simp only [ScanOutcome.state, Option.some.injEq] at h
      subst h
      exact ⟨hc, hp⟩
    | cons task rest =>
      unfold scanLoop at h
      simp only [] at h
      split at h
      · simp only [ScanOutcome.state, Option.some.injEq] at h
        subst h
        exact ⟨hc, hp⟩
      · split at h
        · simp only [ScanOutcome.state, Option.some.injEq] at h
          subst h
          exact ⟨hc, hp⟩
        · rename_i albumId hsel
          split at h
          · rename_i st3 hfl
            simp only [ScanOutcome.state, Option.some.injEq] at h
            subst h
            obtain ⟨g1, g2⟩ := fileLoop_pres hm hr hs hmem _ _ _ hfl hc hp
            simp only [FileLoopResult.state] at g1 g2
            exact ⟨g1, g2⟩
          · rename_i p3 st3 hfl
            simp only [ScanOutcome.state, Option.some.injEq] at h
            subst h
            obtain ⟨g1, g2⟩ := fileLoop_pres hm hr hs hmem _ _ _ hfl hc hp
            simp only [FileLoopResult.state] at g1 g2
            exact ⟨g1, g2⟩
          · split at h
            · simp [ScanOutcome.state] at h
            · rename_i st3 hfl dlr newTasks c1 hdl
              obtain ⟨g1, g2⟩ := fileLoop_pres hm hr hs hmem _ _ _ hfl hc hp
              simp only [FileLoopResult.state] at g1 g2
              exact ih _ _ stf h (dirLoop_pres_get hm hr hs hmem _ _ _ hdl g1) g2

/-- C7: for every file `pb` whose header sniffs to a content type outside
the fixed allow-list of six supported image types (for example
`application/pdf`), the classification returns false with the cache
unchanged, and across a whole scan run no entry for `pb` is ever inserted
into the type cache and `pb` is never handed to the photo-processing
collaborator. -/
theorem unsupported_type_never_cached_or_processed (env : ScanEnv) (user : GoUser)
    (fuel : Nat) (db0 : DB) (pb : String) (meta : FileMeta) (mime : String)
    (stf : ScanState)
    (hm : env.fs.files pb = some meta) (hr : meta.readOk = true)
    (hs : meta.sniff = some mime) (hmem : ¬ mime ∈ SupportedMimetypes)
    (hscan : (scan env user fuel db0).state = some stf) :
    (∀ c, get_photo_type c pb = none → isPathImage pb c env.fs = (false, c)) ∧
    get_photo_type stf.cache pb = none ∧ ¬ pb ∈ stf.processed := by
  refine ⟨fun c hc => isPathImage_unsupported_false hm hr hs hmem hc, ?_⟩
  unfold scan at hscan
  cases hl : scanLoop env user.id fuel [⟨user.rootPath, none⟩] ⟨db0, [], [], []⟩ with
  | done st =>
    rw [hl] at hscan
    simp only [ScanOutcome.state, Option.some.injEq] at hscan
    subst hscan
    exact scanLoop_pres hm hr hs hmem user.id fuel [⟨user.rootPath, none⟩]
      ⟨db0, [], [], []⟩ st (by rw [hl]; rfl) rfl (by simp)
  | abortedRead d st =>
    rw [hl] at hscan
    simp only [ScanOutcome.state, Option.some.injEq] at hscan
    subst hscan
    exact scanLoop_pres hm hr hs hmem user.id fuel [⟨user.rootPath, none⟩]
      ⟨db0, [], [], []⟩ st (by rw [hl]; rfl) rfl (by simp)
  | abortedAlbumLookup st =>
    rw [hl] at hscan
    simp only [ScanOutcome.state, Option.some.injEq] at hscan
    subst hscan
    exact scanLoop_pres hm hr hs hmem user.id fuel [⟨user.rootPath, none⟩]
      ⟨db0, [], [], []⟩ st (by rw [hl]; rfl) rfl (by simp)
  | abortedCacheMiss st =>
    rw [hl] at hscan
    simp only [ScanOutcome.state, Option.some.injEq] at hscan
    subst hscan
    exact scanLoop_pres hm hr hs hmem user.id fuel [⟨user.rootPath, none⟩]
      ⟨db0, [], [], []⟩ st (by rw [hl]; rfl) rfl (by simp)
  | abortedProcess p st =>
    rw [hl] at hscan
    simp only [ScanOutcome.state, Option.some.injEq] at hscan
    subst hscan
    exact scanLoop_pres hm hr hs hmem user.id fuel [⟨user.rootPath, none⟩]
      ⟨db0, [], [], []⟩ st (by rw [hl]; rfl) rfl (by simp)
  | noFuel =>
    rw [hl] at hscan
    simp [ScanOutcome.state] at hscan

/-- Witness for C7: after a completed scan of `/docs`, the PDF has no type
cache entry and was never handed to the collaborator, while the JPEG was. -/
theorem unsupported_type_never_cached_or_processed_witness :
    (env5.fs.files "/docs/report.pdf" = some ⟨true, some "application/pdf"⟩ ∧
      ¬ "application/pdf" ∈ SupportedMimetypes ∧
      (scan env5 ⟨3, "/docs"⟩ 5 ⟨[], []⟩).state = some st5 ∧
      "/docs/ok.jpg" ∈ st5.processed) ∧
    (get_photo_type st5.cache "/docs/report.pdf" = none ∧
      ¬ "/docs/report.pdf" ∈ st5.processed) :=
  ⟨⟨by decide, by decide, by decide, by decide⟩,
    (unsupported_type_never_cached_or_processed env5 ⟨3, "/docs"⟩ 5 ⟨[], []⟩
      "/docs/report.pdf" ⟨true, some "application/pdf"⟩ "application/pdf" st5
      (by decide) (by decide) (by decide) (by decide) (by decide)).2⟩
